import Mathlib

/-!
Shallow embedding of `whyzer.py`, a WhatsApp chat-log parser and
message-aggregation engine, together with theorems settling the claims of
its design specification.

Modelling conventions:
* Python strings are `List Char` (`Str`); `len` is `List.length`, `in` is
  `List.contains`, dictionaries are association lists with `List.lookup`.
* The input is the list of physical lines of the chat file with their
  trailing newline stripped (Python's file iteration yields them with one;
  the `date_content` pattern excludes that newline from both captures, so
  on entry-start lines the two models agree, and no claim below exercises
  the body of a continuation line).
* `datetime` values are modelled by their absolute second count in the
  proleptic Gregorian calendar (`toSeconds`); `(a - b).total_seconds()`
  is then integer subtraction, exact because parsed times have
  whole-minute precision.
* `sys.exit(1)` with a diagnostic (lines 106-107 and 112-114 of the
  source) is modelled as `Except.error` with a `ParseError` tag.
* The compiled regular expressions of the `en` locale profile are
  embedded as executable character-list matchers with Python `re`
  semantics (`re.match` anchoring, `$` matching at the end or before one
  final newline, `.` not crossing newlines unless `DOTALL`, greedy and
  non-greedy repetition as used by each pattern).
* The fields `ingests` and `title_sets` of `ParserState` are
  instrumentation: they record, respectively, the author argument of each
  `handle_text_message` call and the number of executed assignments to
  `self.chat_name`.  They influence nothing and exist only so that claims
  counting those events can be stated.
-/

/-- Python strings are modelled as lists of characters. -/
abbrev Str := List Char

/-- Character-list view of a Lean string literal. -/
def str (s : String) : Str := s.toList

/-- The newline character, written via its code point. -/
def nlChar : Char := Char.ofNat 10

/-- The apostrophe character, written via its code point. -/
def aposChar : Char := Char.ofNat 39

/-- One record of `Parser.msgs`: the Python list
`[author, date, len(body), 1, initiator]` appended at line 102 of the
source, with index 2 (`body_len`) and index 3 (`parts`) mutated by the
multipart merge at lines 99-100. -/
structure Message where
  author : Str
  date : Int
  body_len : Nat
  parts : Nat
  initiator : Bool
  deriving Repr, DecidableEq

/-- The two fatal conditions of `Parser.handle_entry` (source lines
104-114): no entry ever started, and a date text that does not parse
under the locale's format. -/
inductive ParseError where
  | noEntry
  | badDate
  deriving Repr, DecidableEq

/-- The mutable state of a `Parser` instance (source lines 60-73), plus
the two instrumentation fields described in the header. -/
structure ParserState where
  multipart : Bool
  aliases : List (Str × Str)
  common_words : List Str
  member_msg_count : List (Str × Nat)
  msgs : List Message
  all_words : Str
  chat_name : Option Str
  date_buffer : Option Str
  content_buffer : Str
  ingests : List Str
  title_sets : Nat
  deriving Repr, DecidableEq

/-- `defaultdict(int)` lookup: a missing author has count 0. -/
def msgCount (st : ParserState) (a : Str) : Nat :=
  (st.member_msg_count.lookup a).getD 0

/-- The state of a freshly constructed `Parser` (source lines 47-73).
The common-word file contents and the alias mapping are constructor
inputs. -/
def initState (aliases : List (Str × Str)) (multipart : Bool)
    (cw : List Str) : ParserState :=
  { multipart := multipart
    aliases := aliases
    common_words := cw
    member_msg_count := []
    msgs := []
    all_words := []
    chat_name := none
    date_buffer := none
    content_buffer := []
    ingests := []
    title_sets := 0 }

/-- Calendar date and wall-clock minute, as produced by
`datetime.strptime(text, "%d/%m/%Y, %H:%M")`. -/
structure DateTime where
  year : Nat
  month : Nat
  day : Nat
  hour : Nat
  minute : Nat
  deriving Repr, DecidableEq

/-- Gregorian leap-year rule. -/
def isLeap (y : Nat) : Bool :=
  y % 4 == 0 && (y % 100 != 0 || y % 400 == 0)

/-- Length of a month, as validated by `datetime`. -/
def daysInMonth (y m : Nat) : Nat :=
  if m = 2 then (if isLeap y then 29 else 28)
  else if m = 4 ∨ m = 6 ∨ m = 9 ∨ m = 11 then 30
  else 31

/-- Days in the years before year `y` (proleptic Gregorian, `y ≥ 1`). -/
def daysBeforeYear (y : Nat) : Nat :=
  (y - 1) * 365 + (y - 1) / 4 + (y - 1) / 400 - (y - 1) / 100

/-- Days in the months of year `y` before month `m`. -/
def daysBeforeMonth (y m : Nat) : Nat :=
  ((List.range (m - 1)).map (fun i => daysInMonth y (i + 1))).sum

/-- Day number of a civil date (day 0 = January 1 of year 1). -/
def rataDie (y m d : Nat) : Nat :=
  daysBeforeYear y + daysBeforeMonth y m + (d - 1)

/-- Absolute second count of a `datetime`; differences of these are
exactly `(a - b).total_seconds()`. -/
def toSeconds (t : DateTime) : Int :=
  Int.ofNat (rataDie t.year t.month t.day * 86400 + t.hour * 3600 + t.minute * 60)

/-- Numeric value of a decimal digit character. -/
def digitVal (c : Char) : Nat := c.toNat - 48

/-- `datetime.strptime(s, "%d/%m/%Y, %H:%M")` on the text captured by the
`en` profile's date group: the whole string must be consumed and the
field values must form a valid timestamp, else `ValueError` (`none`). -/
def parseDateEn (s : Str) : Option DateTime :=
  match s with
  | [d1, d2, '/', m1, m2, '/', y1, y2, y3, y4, ',', ' ', h1, h2, ':', n1, n2] =>
    if d1.isDigit && d2.isDigit && m1.isDigit && m2.isDigit &&
       y1.isDigit && y2.isDigit && y3.isDigit && y4.isDigit &&
       h1.isDigit && h2.isDigit && n1.isDigit && n2.isDigit then
      let d := 10 * digitVal d1 + digitVal d2
      let m := 10 * digitVal m1 + digitVal m2
      let y := 1000 * digitVal y1 + 100 * digitVal y2 + 10 * digitVal y3 + digitVal y4
      let h := 10 * digitVal h1 + digitVal h2
      let mi := 10 * digitVal n1 + digitVal n2
      if 1 ≤ y ∧ y ≤ 9999 ∧ 1 ≤ m ∧ m ≤ 12 ∧ 1 ≤ d ∧ d ≤ daysInMonth y m ∧
         h ≤ 23 ∧ mi ≤ 59 then
        some ⟨y, m, d, h, mi⟩
      else none
    else none
  | _ => none

/-- The `en` profile's entry-start pattern
`^(\d\d/\d\d/\d\d\d\d, \d\d:\d\d) - (.*)$` (source line 28), returning
the two captures of a `re.match`. -/
def matchDateContentEn : Str → Option (Str × Str)
  | d1 :: d2 :: '/' :: m1 :: m2 :: '/' :: y1 :: y2 :: y3 :: y4 :: ',' :: ' ' ::
      h1 :: h2 :: ':' :: n1 :: n2 :: ' ' :: '-' :: ' ' :: rest =>
    if (d1.isDigit && d2.isDigit && m1.isDigit && m2.isDigit &&
        y1.isDigit && y2.isDigit && y3.isDigit && y4.isDigit &&
        h1.isDigit && h2.isDigit && n1.isDigit && n2.isDigit) &&
        !(rest.contains nlChar) then
      some ([d1, d2, '/', m1, m2, '/', y1, y2, y3, y4, ',', ' ', h1, h2, ':', n1, n2],
            rest)
    else none
  | _ => none

/-- The message pattern `^(.*?): (.*)$` with `re.DOTALL` (source line
52): split at the first `": "` occurrence; the second capture runs to the
very end of the text, newlines included. -/
def splitColonSpace : Str → Option (Str × Str)
  | [] => none
  | ':' :: ' ' :: rest => some ([], rest)
  | c :: rest =>
    match splitColonSpace rest with
    | some (a, b) => some (c :: a, b)
    | none => none

/-- Remove one trailing newline, as Python's `$` anchor permits. -/
def stripNl (s : Str) : Str :=
  match s.reverse with
  | c :: r => if c == nlChar then r.reverse else s
  | [] => s

/-- Literal body of the `en` deleted-message pattern. -/
def deletedLitEn : Str := str "This message was deleted"

/-- Literal body of the `en` media-placeholder pattern. -/
def mediaLitEn : Str := str "<Media omitted>"

/-- `re.match` of `^This message was deleted$` against a body: equality
up to one trailing newline. -/
def matchDeletedEn (body : Str) : Bool :=
  body == deletedLitEn || body == deletedLitEn ++ [nlChar]

/-- `re.match` of `^<Media omitted>$` against a body. -/
def matchMediaEn (body : Str) : Bool :=
  body == mediaLitEn || body == mediaLitEn ++ [nlChar]

/-- Literal fragment of the `en` group-created pattern. -/
def createdMarkerEn : Str := str " created Group \""

/-- First literal fragment of the `en` subject-change pattern. -/
def renameMarker1En : Str := str " changed the subject from \""

/-- Second literal fragment of the `en` subject-change pattern. -/
def renameMarker2En : Str := str "\" to \""

/-- `re.match` of `^.* created Group "(.*)"$` (source line 32): the text
(up to one trailing newline) must be newline-free and end in a quote; the
greedy leading `.*` picks the last occurrence of the marker, and the
capture is what lies between that occurrence and the final quote. -/
def matchCreatedEn (s0 : Str) : Option Str :=
  let s := stripNl s0
  if s.contains nlChar then none
  else
    match s.reverse with
    | '"' :: rb =>
      let body := rb.reverse
      let ps := (List.range (body.length + 1)).filter
          (fun i => createdMarkerEn.isPrefixOf (body.drop i))
      match ps.getLast? with
      | some i => some (body.drop (i + createdMarkerEn.length))
      | none => none
    | _ => none

/-- `re.match` of `^.* changed the subject from ".*" to "(.*)"$` (source
line 33): greedy leading `.*` (latest viable first marker), then greedy
inner `.*` (latest second marker), capture up to the final quote. -/
def matchRenameEn (s0 : Str) : Option Str :=
  let s := stripNl s0
  if s.contains nlChar then none
  else
    match s.reverse with
    | '"' :: rb =>
      let body := rb.reverse
      let tryAt := fun (i : Nat) =>
        if renameMarker1En.isPrefixOf (body.drop i) then
          let r := body.drop (i + renameMarker1En.length)
          let js := (List.range (r.length + 1)).filter
              (fun j => renameMarker2En.isPrefixOf (r.drop j))
          match js.getLast? with
          | some j => some (r.drop (j + renameMarker2En.length))
          | none => none
        else none
      let is := (List.range (body.length + 1)).filter (fun i => (tryAt i).isSome)
      match is.getLast? with
      | some i => tryAt i
      | none => none
    | _ => none

/-- Character class `[\w'-]` of the word pattern (source line 55),
restricted to the ASCII texts this development evaluates it on. -/
def isWordChar (c : Char) : Bool :=
  c.isAlphanum || c == '_' || c == aposChar || c == '-'

/-- Accumulator for `tokens`: `cur` holds the current run reversed. -/
def tokensAux (cur : Str) : Str → List Str
  | [] => if cur.isEmpty then [] else [cur.reverse]
  | c :: rest =>
    if isWordChar c then tokensAux (c :: cur) rest
    else if cur.isEmpty then tokensAux [] rest
    else cur.reverse :: tokensAux [] rest

/-- `regex_words.finditer(body)`: the maximal runs of word characters, in
order. -/
def tokens (body : Str) : List Str := tokensAux [] body

/-- The word loop of `handle_text_message` (source lines 92-95): lowercase
each token and append `" " + word` to the corpus unless the word is in the
common-word list. -/
def appendFiltered (common : List Str) (acc : Str) : List Str → Str
  | [] => acc
  | w :: ws =>
    let lw := w.map Char.toLower
    appendFiltered common (if common.contains lw then acc else acc ++ ' ' :: lw) ws

/-- The corpus contribution of one body, started from an empty corpus. -/
def filteredRender (common : List Str) (body : Str) : Str :=
  appendFiltered common [] (tokens body)

/-- Source lines 92-96: run the word loop on the corpus, then append the
sentence terminator `". "`. -/
def addWords (common : List Str) (corpus body : Str) : Str :=
  appendFiltered common corpus (tokens body) ++ str ". "

/-- Author alias resolution of `handle_entry` (source lines 122-125):
exact alias lookup first, then the first-space-token normalization on the
resulting value when it contains a space and no `+`. -/
def resolveAuthor (aliases : List (Str × Str)) (author0 : Str) : Str :=
  let author :=
    match aliases.lookup author0 with
    | some v => v
    | none => author0
  if author.contains ' ' && !(author.contains '+') then
    author.takeWhile (fun c => c != ' ')
  else author

/-- The initiator computation of `handle_text_message` (source lines
81-87): `initiator` starts `True` and is cleared when the heuristics run
(`self.multipart` set and a previous message exists) and
`diff < 60*60*24 or "?" not in body`. -/
def initiatorFlag (st : ParserState) (date : Int) (body : Str) : Bool :=
  if st.multipart then
    match st.msgs.getLast? with
    | some prev => !(decide (date - prev.date < 86400) || !(body.contains '?'))
    | none => true
  else true

/-- The multipart computation of `handle_text_message` (source lines
80-90): merge when the heuristics run, the previous author equals this
one and `diff < 60*3`. -/
def mergeFlag (st : ParserState) (date : Int) (author : Str) : Bool :=
  if st.multipart then
    match st.msgs.getLast? with
    | some prev => prev.author == author && decide (date - prev.date < 180)
    | none => false
  else false

/-- `self.msgs[-1][2] += len(body); self.msgs[-1][3] += 1` (source lines
99-100): bump `body_len` and `parts` of the last record. -/
def mergeIntoLast (n : Nat) : List Message → List Message
  | [] => []
  | [m] => [{ m with body_len := m.body_len + n, parts := m.parts + 1 }]
  | m :: rest => m :: mergeIntoLast n rest

/-- `Parser.handle_text_message` (source lines 75-102): compute the two
flags, extract words into the corpus unconditionally, then either merge
into the last record or append a fresh one. -/
def handle_text_message (st : ParserState) (date : Int) (author body : Str) :
    ParserState :=
  let mp := mergeFlag st date author
  let ini := initiatorFlag st date body
  let st1 := { st with
    all_words := addWords st.common_words st.all_words body
    ingests := st.ingests ++ [author] }
  let fresh : Message :=
    { author := author, date := date, body_len := body.length,
      parts := 1, initiator := ini }
  if mp then
    { st1 with msgs := mergeIntoLast body.length st1.msgs }
  else
    { st1 with msgs := st1.msgs ++ [fresh] }

/-- The group-created test of `handle_entry` (source lines 134-137): a
match assigns the chat title. -/
def applyCreated (st : ParserState) : ParserState :=
  match matchCreatedEn st.content_buffer with
  | some name => { st with chat_name := some name, title_sets := st.title_sets + 1 }
  | none => st

/-- The subject-change test of `handle_entry` (source lines 139-142): a
match assigns the chat title. -/
def applyRename (st : ParserState) : ParserState :=
  match matchRenameEn st.content_buffer with
  | some name => { st with chat_name := some name, title_sets := st.title_sets + 1 }
  | none => st

/-- The system-notice branch of `handle_entry` (source lines 133-144):
both notice patterns are tested against the accumulated content (which
neither test modifies), and each match assigns the chat title. -/
def applyNotices (st : ParserState) : ParserState :=
  applyRename (applyCreated st)

/-- `Parser.handle_entry` (source lines 104-144): fatal when no entry was
ever started or the date text does not parse; otherwise classify the
accumulated content as chat message (with alias resolution and
deleted/media filtering) or as system notices. -/
def handle_entry (st : ParserState) : Except ParseError ParserState :=
  match st.date_buffer with
  | none => Except.error ParseError.noEntry
  | some db =>
    match parseDateEn db with
    | none => Except.error ParseError.badDate
    | some dt =>
      match splitColonSpace st.content_buffer with
      | some (author0, body) =>
        if matchDeletedEn body then Except.ok st
        else if matchMediaEn body then Except.ok st
        else Except.ok
          (handle_text_message st (toSeconds dt) (resolveAuthor st.aliases author0) body)
      | none => Except.ok (applyNotices st)

/-- `Parser.parse_line` (source lines 146-157): an entry-start line
finalizes any pending entry and starts a new one; any other line is a
continuation appended with a newline separator. -/
def parse_line (st : ParserState) (line : Str) : Except ParseError ParserState :=
  match matchDateContentEn line with
  | some (d, c) =>
    match st.date_buffer with
    | some _ =>
      match handle_entry st with
      | Except.ok st1 => Except.ok { st1 with date_buffer := some d, content_buffer := c }
      | Except.error e => Except.error e
    | none => Except.ok { st with date_buffer := some d, content_buffer := c }
  | none =>
    Except.ok { st with content_buffer := st.content_buffer ++ nlChar :: line }

/-- The line loop of `Parser.parse_file` (source lines 162-163). -/
def parseLines (st : ParserState) : List Str → Except ParseError ParserState
  | [] => Except.ok st
  | l :: rest =>
    match parse_line st l with
    | Except.ok st1 => parseLines st1 rest
    | Except.error e => Except.error e

/-- `Parser.parse_file` (source lines 159-167): feed every line, then
finalize the pending entry once at end of input. -/
def parse_file (st : ParserState) (lines : List Str) :
    Except ParseError ParserState :=
  match parseLines st lines with
  | Except.ok st1 => handle_entry st1
  | Except.error e => Except.error e

/-- A run of the aggregator alone: `handle_text_message` applied to a
sequence of already-classified `(date, author, body)` events. -/
def runIngests (st : ParserState) : List (Int × Str × Str) → ParserState
  | [] => st
  | (d, a, b) :: rest => runIngests (handle_text_message st d a b) rest

/-- The single entry-start line used to exhibit the counter behaviour. -/
def c1line : Str := str "01/01/2020, 10:00 - Alice: Hello"

/-- The completed state of the one-line run (the run succeeds, so the
`getD` default is never used). -/
def c1run : ParserState :=
  (parse_file (initState [] true []) [c1line]).toOption.getD (initState [] true [])

/-- The three-line scenario of the specification's end-to-end property. -/
def c3lines : List Str :=
  [str "01/01/2020, 10:00 - Alice: Hello",
   str "01/01/2020, 10:01 - Alice: How are you?",
   str "02/01/2020, 10:05 - Bob: I am fine, thanks for asking?"]

/-- An entry-start line carrying a subject-change notice. -/
def renLine : Str := str "01/01/2020, 10:00 - A changed the subject from \"x\" to \"y\""

/-- The parser state after `k + 1` copies of `renLine` have been fed (the
last one still buffered, `k` entries finalized). -/
def renState (k : Nat) : ParserState :=
  { initState [] true [] with
    date_buffer := some (str "01/01/2020, 10:00")
    content_buffer := str "A changed the subject from \"x\" to \"y\""
    chat_name := if k = 0 then none else some (str "y")
    title_sets := k }

/-- Two entry-start lines whose timestamps decrease. -/
def c7lines : List Str :=
  [str "02/01/2020, 10:00 - Alice: Hi", str "01/01/2020, 10:00 - Bob: Ho"]

/-- A parser with the multipart toggle disabled and one prior message. -/
def C5cexState : ParserState :=
  { initState [] false [] with
    msgs := [{ author := str "A", date := 0, body_len := 1, parts := 1, initiator := true }] }

/-- A parser with the multipart toggle enabled and one prior message. -/
def C5wState : ParserState :=
  { initState [] true [] with
    msgs := [{ author := str "A", date := 0, body_len := 1, parts := 1, initiator := true }] }

/-- A parser with the multipart toggle enabled and one prior message of
body length 5 by author `A`. -/
def C6wState : ParserState :=
  { initState [] true [] with
    msgs := [{ author := str "A", date := 0, body_len := 5, parts := 1, initiator := true }] }

theorem htm_multipart (st : ParserState) (d : Int) (a b : Str) :
    (handle_text_message st d a b).multipart = st.multipart := by
  rcases Bool.eq_false_or_eq_true (mergeFlag st d a) with hm | hm <;>
    simp [handle_text_message, hm]

theorem htm_mmc (st : ParserState) (d : Int) (a b : Str) :
    (handle_text_message st d a b).member_msg_count = st.member_msg_count := by
  rcases Bool.eq_false_or_eq_true (mergeFlag st d a) with hm | hm <;>
    simp [handle_text_message, hm]

theorem htm_all_words (st : ParserState) (d : Int) (a b : Str) :
    (handle_text_message st d a b).all_words
      = addWords st.common_words st.all_words b := by
  rcases Bool.eq_false_or_eq_true (mergeFlag st d a) with hm | hm <;>
    simp [handle_text_message, hm]

theorem htm_msgs_merge (st : ParserState) (d : Int) (a b : Str)
    (h : mergeFlag st d a = true) :
    (handle_text_message st d a b).msgs = mergeIntoLast b.length st.msgs := by
  simp [handle_text_message, h]

theorem htm_msgs_append (st : ParserState) (d : Int) (a b : Str)
    (h : mergeFlag st d a = false) :
    (handle_text_message st d a b).msgs
      = st.msgs ++ [{ author := a, date := d, body_len := b.length, parts := 1,
                      initiator := initiatorFlag st d b }] := by
  simp [handle_text_message, h]

theorem mergeIntoLast_eq (n : Nat) :
    ∀ (l : List Message) (m : Message), l.getLast? = some m →
      mergeIntoLast n l
        = l.dropLast ++ [{ m with body_len := m.body_len + n, parts := m.parts + 1 }] := by
  intro l
  induction l with
  | nil => intro m h; cases h
  | cons x xs ih =>
    intro m h
    cases xs with
    | nil =>
      simp only [List.getLast?_singleton, Option.some.injEq] at h
      subst h
      rfl
    | cons y ys =>
      rw [List.getLast?_cons_cons] at h
      have h2 := ih m h
      show x :: mergeIntoLast n (y :: ys) = _
      rw [h2]
      rfl

theorem mergeIntoLast_map_date (n : Nat) :
    ∀ l : List Message,
      (mergeIntoLast n l).map (fun m => m.date) = l.map (fun m => m.date) := by
  intro l
  induction l with
  | nil => rfl
  | cons x xs ih =>
    cases xs with
    | nil => rfl
    | cons y ys =>
      show (x :: mergeIntoLast n (y :: ys)).map _ = _
      simp only [List.map_cons]
      rw [show (mergeIntoLast n (y :: ys)).map (fun m => m.date)
            = (y :: ys).map (fun m => m.date) from ih]
      simp

theorem appendFiltered_factor (common : List Str) :
    ∀ (ws : List Str) (acc : Str),
      appendFiltered common acc ws = acc ++ appendFiltered common [] ws := by
  intro ws
  induction ws with
  | nil => intro acc; simp [appendFiltered]
  | cons w ws ih =>
    intro acc
    show appendFiltered common (if common.contains (w.map Char.toLower) then acc
          else acc ++ ' ' :: w.map Char.toLower) ws
        = acc ++ appendFiltered common (if common.contains (w.map Char.toLower) then []
          else [] ++ ' ' :: w.map Char.toLower) ws
    by_cases h : common.contains (w.map Char.toLower) = true
    · simp only [h, if_pos]
      exact ih acc
    · simp only [Bool.not_eq_true] at h
      simp only [h, Bool.false_eq_true, if_false, List.nil_append]
      rw [ih (acc ++ ' ' :: w.map Char.toLower), ih (' ' :: w.map Char.toLower)]
      simp [List.append_assoc]

/-- C9: every ingested chat message contributes exactly one token-filtered
rendering of its body to the corpus followed by the sentence terminator
`". "`, merged or not (the corpus update precedes the merge branch); each
token is lowercased and dropped when it is in the common-word list, so for
a list containing `"the"` the body `"the Quick fox"` contributes exactly
the tokens `"quick"` and `"fox"`. -/
theorem C9_corpus_once_per_ingest (st : ParserState) (date : Int) (author body : Str) :
    (handle_text_message st date author body).all_words
      = st.all_words ++ (filteredRender st.common_words body ++ str ". ")
  ∧ filteredRender [str "the"] (str "the Quick fox") = str " quick fox" := by
  constructor
  · rw [htm_all_words]
    unfold addWords filteredRender
    rw [appendFiltered_factor]
    simp [List.append_assoc]
  · rfl

theorem runIngests_all_initiator (evs : List (Int × Str × Str)) :
    ∀ st : ParserState, st.multipart = false →
      st.msgs.all (fun m => m.initiator) = true →
      (runIngests st evs).msgs.all (fun m => m.initiator) = true := by
  induction evs with
  | nil => intro st _ h; exact h
  | cons e rest ih =>
    obtain ⟨d, a, b⟩ := e
    intro st hmp hall
    show (runIngests (handle_text_message st d a b) rest).msgs.all _ = true
    refine ih _ ?_ ?_
    · rw [htm_multipart]; exact hmp
    · have hmf : mergeFlag st d a = false := by simp [mergeFlag, hmp]
      have hif : initiatorFlag st d b = true := by simp [initiatorFlag, hmp]
      rw [htm_msgs_append st d a b hmf, List.all_append, hall, hif]
      rfl

/-- C10: with the multipart toggle disabled, every recorded message has
`is_initiator = true`, whatever the timestamp differences and bodies: the
initiator-disqualification logic is evaluated only under the multipart
flag. -/
theorem C10_initiator_always_true (aliases : List (Str × Str)) (cw : List Str)
    (evs : List (Int × Str × Str)) :
    (runIngests (initState aliases false cw) evs).msgs.all
      (fun m => m.initiator) = true :=
  runIngests_all_initiator evs (initState aliases false cw) rfl rfl

/-- C5 as stated is false on the code: with the multipart toggle disabled
a message ingested 10 seconds after a prior message, without any `?`,
is still recorded with `is_initiator = true`, though the claimed iff
condition fails. -/
theorem C5_counterexample :
    ((handle_text_message C5cexState 10 (str "B") (str "hi")).msgs.map
        (fun m => m.initiator) = [true, true])
  ∧ ¬ (86400 ≤ (10 : Int) - 0 ∧ (str "hi").contains '?' = true) := by
  refine ⟨rfl, ?_⟩
  decide

/-- C5 (amended): when the parser's multipart toggle is enabled and a
prior message exists, the computed initiator flag is true iff the
timestamp difference from the previous record is at least 86400 seconds
and the body contains a `?`; when the message is not merged, the appended
record carries exactly that flag. -/
theorem C5_initiator_iff (st : ParserState) (prev : Message) (date : Int)
    (author body : Str) (hmp : st.multipart = true)
    (hlast : st.msgs.getLast? = some prev)
    (hmf : mergeFlag st date author = false) :
    (initiatorFlag st date body = true ↔
      (86400 ≤ date - prev.date ∧ body.contains '?' = true))
  ∧ (handle_text_message st date author body).msgs.getLast?
      = some { author := author, date := date, body_len := body.length,
               parts := 1, initiator := initiatorFlag st date body } := by
  constructor
  · simp [initiatorFlag, hmp, hlast, not_lt]
  · rw [htm_msgs_append st date author body hmf, List.getLast?_concat]

/-- Instantiation of `C5_initiator_iff` at a concrete state, at the exact
86400-second boundary. -/
theorem C5_initiator_iff_witness :
    (initiatorFlag C5wState 86400 (str "ok?") = true ↔
      (86400 ≤ (86400 : Int) - 0 ∧ (str "ok?").contains '?' = true))
  ∧ (handle_text_message C5wState 86400 (str "B") (str "ok?")).msgs.getLast?
      = some { author := str "B", date := 86400, body_len := (str "ok?").length,
               parts := 1, initiator := initiatorFlag C5wState 86400 (str "ok?") } :=
  C5_initiator_iff C5wState
    { author := str "A", date := 0, body_len := 1, parts := 1, initiator := true }
    86400 (str "B") (str "ok?") rfl rfl rfl

/-- C6: with the multipart heuristic enabled, a second message by the same
resolved author exactly 179 seconds after the previous record merges into
it (no new record; author, timestamp and initiator unchanged; `parts` and
`body_len` bumped), while at exactly 180 seconds a separate record with
`part_count = 1` is appended (and, 180 seconds being within a day, with
`is_initiator = false`). -/
theorem C6_merge_threshold (st : ParserState) (prev : Message) (author body : Str)
    (hmp : st.multipart = true) (hlast : st.msgs.getLast? = some prev)
    (ha : prev.author = author) :
    ((handle_text_message st (prev.date + 179) author body).msgs
        = st.msgs.dropLast
            ++ [{ prev with body_len := prev.body_len + body.length, parts := prev.parts + 1 }])
  ∧ ((handle_text_message st (prev.date + 180) author body).msgs
        = st.msgs
            ++ [{ author := author, date := prev.date + 180, body_len := body.length, parts := 1, initiator := false }]) := by
  have e179 : prev.date + 179 - prev.date = (179 : Int) := by ring
  have e180 : prev.date + 180 - prev.date = (180 : Int) := by ring
  have h179 : mergeFlag st (prev.date + 179) author = true := by
    simp [mergeFlag, hmp, hlast, ha, e179]
  have h180 : mergeFlag st (prev.date + 180) author = false := by
    simp [mergeFlag, hmp, hlast, ha, e180]
  have i180 : initiatorFlag st (prev.date + 180) body = false := by
    simp [initiatorFlag, hmp, hlast, e180]
  constructor
  · rw [htm_msgs_merge st (prev.date + 179) author body h179]
    exact mergeIntoLast_eq body.length st.msgs prev hlast
  · rw [htm_msgs_append st (prev.date + 180) author body h180, i180]

/-- Instantiation of `C6_merge_threshold` at a concrete one-message
state: 179 seconds merge into `parts = 2`, 180 seconds append a separate
`parts = 1` record. -/
theorem C6_merge_threshold_witness :
    ((handle_text_message C6wState ((0 : Int) + 179) (str "A") (str "hi")).msgs
        = [{ author := str "A", date := 0, body_len := 7, parts := 2, initiator := true }])
  ∧ ((handle_text_message C6wState ((0 : Int) + 180) (str "A") (str "hi")).msgs
        = [{ author := str "A", date := 0, body_len := 5, parts := 1, initiator := true },
           { author := str "A", date := (0 : Int) + 180, body_len := 2, parts := 1,
             initiator := false }]) :=
  C6_merge_threshold C6wState
    { author := str "A", date := 0, body_len := 5, parts := 1, initiator := true }
    (str "A") (str "hi") rfl rfl rfl

/-- C7 as stated is false on the code: an input whose entries carry
decreasing timestamps is parsed without reordering or complaint, so the
final message dates are not non-decreasing. -/
theorem C7_counterexample :
    (parse_file (initState [] true []) c7lines).toOption.map
        (fun st => st.msgs.map (fun m => m.date))
      = some [toSeconds ⟨2020, 1, 2, 10, 0⟩, toSeconds ⟨2020, 1, 1, 10, 0⟩]
  ∧ ¬ List.Pairwise (fun x y : Int => x ≤ y)
        [toSeconds ⟨2020, 1, 2, 10, 0⟩, toSeconds ⟨2020, 1, 1, 10, 0⟩] := by
  refine ⟨rfl, ?_⟩
  decide

theorem runIngests_dates_sublist : ∀ (evs : List (Int × Str × Str)) (st : ParserState),
    ((runIngests st evs).msgs.map (fun m => m.date)).Sublist
      (st.msgs.map (fun m => m.date) ++ evs.map (fun e => e.1)) := by
  intro evs
  induction evs with
  | nil =>
    intro st
    show (st.msgs.map (fun m => m.date)).Sublist (st.msgs.map (fun m => m.date) ++ [])
    simp
  | cons e rest ih =>
    obtain ⟨d, a, b⟩ := e
    intro st
    show ((runIngests (handle_text_message st d a b) rest).msgs.map _).Sublist _
    have h := ih (handle_text_message st d a b)
    rcases Bool.eq_false_or_eq_true (mergeFlag st d a) with hm | hm
    · rw [htm_msgs_merge st d a b hm, mergeIntoLast_map_date] at h
      refine h.trans ?_
      refine List.Sublist.append_left ?_ _
      exact List.sublist_cons_self d (rest.map (fun e => e.1))
    · rw [htm_msgs_append st d a b hm, List.map_append] at h
      simpa [List.append_assoc] using h

theorem runIngests_dates_pairwise : ∀ (evs : List (Int × Str × Str)) (st : ParserState),
    List.Pairwise (fun x y : Int => x ≤ y)
      (st.msgs.map (fun m => m.date) ++ evs.map (fun e => e.1)) →
    List.Pairwise (fun x y : Int => x ≤ y)
      ((runIngests st evs).msgs.map (fun m => m.date)) := by
  intro evs
  induction evs with
  | nil => intro st h; simpa using h
  | cons e rest ih =>
    obtain ⟨d, a, b⟩ := e
    intro st h
    show List.Pairwise _ ((runIngests (handle_text_message st d a b) rest).msgs.map _)
    apply ih
    rcases Bool.eq_false_or_eq_true (mergeFlag st d a) with hm | hm
    · rw [htm_msgs_merge st d a b hm, mergeIntoLast_map_date]
      refine List.Pairwise.sublist ?_ h
      refine List.Sublist.append_left ?_ _
      exact List.sublist_cons_self d (rest.map (fun e => e.1))
    · rw [htm_msgs_append st d a b hm, List.map_append]
      simpa [List.append_assoc] using h

/-- C7 (amended): the aggregator never reorders — the final record dates
form a sublist of the ingested event dates, in event order — and when the
ingested timestamps are non-decreasing (the chronological-input
assumption) the final record dates are non-decreasing as well; for
out-of-order input the output order can decrease (see the
counterexample). -/
theorem C7_order_preserved (aliases : List (Str × Str)) (mp : Bool) (cw : List Str)
    (evs : List (Int × Str × Str))
    (hsorted : List.Pairwise (fun x y : Int => x ≤ y) (evs.map (fun e => e.1))) :
    List.Pairwise (fun x y : Int => x ≤ y)
      ((runIngests (initState aliases mp cw) evs).msgs.map (fun m => m.date))
  ∧ ((runIngests (initState aliases mp cw) evs).msgs.map (fun m => m.date)).Sublist
      (evs.map (fun e => e.1)) := by
  constructor
  · apply runIngests_dates_pairwise
    simpa using hsorted
  · have h := runIngests_dates_sublist evs (initState aliases mp cw)
    simpa using h

/-- Instantiation of `C7_order_preserved` at a concrete two-event run. -/
theorem C7_order_preserved_witness :
    List.Pairwise (fun x y : Int => x ≤ y)
      ((runIngests (initState [] true []) [(0, str "A", str "x"), (300, str "B", str "y")]).msgs.map
        (fun m => m.date))
  ∧ (((runIngests (initState [] true []) [(0, str "A", str "x"), (300, str "B", str "y")]).msgs.map
        (fun m => m.date)).Sublist
      ([(0, str "A", str "x"), (300, str "B", str "y")].map (fun e => e.1))) :=
  C7_order_preserved [] true [] [(0, str "A", str "x"), (300, str "B", str "y")] (by decide)

theorem parseLines_no_match : ∀ (lines : List Str) (st : ParserState),
    (∀ l ∈ lines, matchDateContentEn l = none) →
    ∃ st', parseLines st lines = Except.ok st' ∧ st'.date_buffer = st.date_buffer := by
  intro lines
  induction lines with
  | nil => intro st _; exact ⟨st, rfl, rfl⟩
  | cons l rest ih =>
    intro st h
    have hl : matchDateContentEn l = none := h l (by simp)
    have hrest : ∀ x ∈ rest, matchDateContentEn x = none := fun x hx => h x (by simp [hx])
    obtain ⟨st', hst', hdb⟩ :=
      ih { st with content_buffer := st.content_buffer ++ nlChar :: l } hrest
    refine ⟨st', ?_, hdb⟩
    show (match parse_line st l with
          | Except.ok st1 => parseLines st1 rest
          | Except.error e => Except.error e) = Except.ok st'
    unfold parse_line
    rw [hl]
    exact hst'

/-- C8: if no input line ever matches the locale's entry-start pattern,
the run terminates fatally (the modelled `sys.exit(1)` with its
diagnostic) when finalization is attempted at end of input, rather than
completing silently — including for empty input. -/
theorem C8_no_entry_fatal (aliases : List (Str × Str)) (mp : Bool) (cw : List Str)
    (lines : List Str) (h : ∀ l ∈ lines, matchDateContentEn l = none) :
    parse_file (initState aliases mp cw) lines = Except.error ParseError.noEntry := by
  obtain ⟨st', hst', hdb⟩ := parseLines_no_match lines (initState aliases mp cw) h
  have hnone : st'.date_buffer = none := hdb.trans rfl
  unfold parse_file
  rw [hst']
  show handle_entry st' = Except.error ParseError.noEntry
  unfold handle_entry
  rw [hnone]

/-- Instantiation of `C8_no_entry_fatal` on a concrete non-matching
line. -/
theorem C8_no_entry_fatal_witness :
    parse_file (initState [] true []) [str "hello world"]
      = Except.error ParseError.noEntry :=
  C8_no_entry_fatal [] true [] [str "hello world"] (by decide)

theorem applyCreated_mmc (st : ParserState) :
    (applyCreated st).member_msg_count = st.member_msg_count := by
  unfold applyCreated
  cases matchCreatedEn st.content_buffer <;> rfl

theorem applyRename_mmc (st : ParserState) :
    (applyRename st).member_msg_count = st.member_msg_count := by
  unfold applyRename
  cases matchRenameEn st.content_buffer <;> rfl

theorem applyNotices_mmc (st : ParserState) :
    (applyNotices st).member_msg_count = st.member_msg_count := by
  unfold applyNotices
  rw [applyRename_mmc, applyCreated_mmc]

theorem handle_entry_mmc (st st' : ParserState)
    (h : handle_entry st = Except.ok st') :
    st'.member_msg_count = st.member_msg_count := by
  unfold handle_entry at h
  split at h
  · exact absurd h (by simp)
  · split at h
    · exact absurd h (by simp)
    · split at h
      · split at h
        · injection h with h2
          subst h2
          rfl
        · split at h
          · injection h with h2
            subst h2
            rfl
          · injection h with h2
            subst h2
            apply htm_mmc
      · injection h with h2
        subst h2
        exact applyNotices_mmc st

theorem parse_line_mmc (st : ParserState) (l : Str) (st' : ParserState)
    (h : parse_line st l = Except.ok st') :
    st'.member_msg_count = st.member_msg_count := by
  unfold parse_line at h
  cases hm : matchDateContentEn l with
  | none =>
    rw [hm] at h
    injection h with h2
    subst h2
    rfl
  | some dc =>
    obtain ⟨d, c⟩ := dc
    rw [hm] at h
    cases hdb : st.date_buffer with
    | none =>
      rw [hdb] at h
      injection h with h2
      subst h2
      rfl
    | some db =>
      rw [hdb] at h
      cases he : handle_entry st with
      | error e => rw [he] at h; simp at h
      | ok st1 =>
        rw [he] at h
        injection h with h2
        subst h2
        show st1.member_msg_count = st.member_msg_count
        exact handle_entry_mmc st st1 he

theorem parseLines_mmc : ∀ (lines : List Str) (st st' : ParserState),
    parseLines st lines = Except.ok st' →
    st'.member_msg_count = st.member_msg_count := by
  intro lines
  induction lines with
  | nil =>
    intro st st' h
    injection h with h2
    subst h2
    rfl
  | cons l rest ih =>
    intro st st' h
    unfold parseLines at h
    cases hl : parse_line st l with
    | error e => rw [hl] at h; simp at h
    | ok st1 =>
      rw [hl] at h
      exact (ih st1 st' h).trans (parse_line_mmc st l st1 hl)

/-- C1 (amended): the per-author counter `member_msg_count` is never
modified anywhere in a parse run — after every completed run it is still
the empty default mapping, so every author's counter reads 0, regardless
of how many chat-message ingest events occurred.  (The per-author counts
the program actually reports are computed by `visualize` from the merged
`Message` records, one per record.) -/
theorem C1_counter_never_incremented (aliases : List (Str × Str)) (mp : Bool)
    (cw : List Str) (lines : List Str) (st : ParserState)
    (h : parse_file (initState aliases mp cw) lines = Except.ok st) :
    st.member_msg_count = [] ∧ ∀ a, msgCount st a = 0 := by
  have hmm : st.member_msg_count = [] := by
    unfold parse_file at h
    cases hp : parseLines (initState aliases mp cw) lines with
    | error e => rw [hp] at h; simp at h
    | ok st1 =>
      rw [hp] at h
      have h1 := parseLines_mmc lines (initState aliases mp cw) st1 hp
      have h2 := handle_entry_mmc st1 st h
      rw [h2, h1]
      rfl
  refine ⟨hmm, fun a => ?_⟩
  simp [msgCount, hmm]

/-- Instantiation of `C1_counter_never_incremented` on the concrete
one-message run. -/
theorem C1_counter_never_incremented_witness :
    c1run.member_msg_count = [] ∧ msgCount c1run (str "Alice") = 0 := by
  have h := C1_counter_never_incremented [] true [] [c1line] c1run rfl
  exact ⟨h.1, h.2 (str "Alice")⟩

/-- C1 as stated is false on the code: after one chat-message ingest
event by Alice, the ingest-event count is 1 but Alice's
`member_msg_count` entry still reads 0 — the counter is initialized
(source line 67) but incremented nowhere. -/
theorem C1_counterexample :
    (parse_file (initState [] true []) [c1line]).toOption.map
        (fun st => (msgCount st (str "Alice"), st.ingests.count (str "Alice")))
      = some (0, 1)
  ∧ (0 : Nat) ≠ 1 := by
  refine ⟨rfl, ?_⟩
  decide

/-- C2 as stated is false on the code: an alias mapping `"X" ↦ "Jane
Doe"` does not make the resolver return `"Jane Doe"` verbatim — the
first-space-token normalization runs on the mapped value too. -/
theorem C2_counterexample :
    resolveAuthor [(str "X", str "Jane Doe")] (str "X") = str "Jane"
  ∧ str "Jane" ≠ str "Jane Doe" := by
  refine ⟨rfl, ?_⟩
  decide

/-- C2 (amended): resolution first substitutes the alias-mapped value on
an exact match, then applies the first-space-token normalization to the
resulting value — mapped or raw — when it contains a space and no `+`;
all other values resolve unchanged (e.g. `"Jane Doe"` unaliased gives
`"Jane"` and `"+49 170 1234567"` is kept). -/
theorem C2_alias_then_normalize (aliases : List (Str × Str)) (a v : Str)
    (hmap : aliases.lookup a = some v) :
    (resolveAuthor aliases a
      = if v.contains ' ' && !(v.contains '+') then v.takeWhile (fun c => c != ' ') else v)
  ∧ (∀ b, aliases.lookup b = none →
      resolveAuthor aliases b
        = if b.contains ' ' && !(b.contains '+') then b.takeWhile (fun c => c != ' ') else b)
  ∧ resolveAuthor [] (str "Jane Doe") = str "Jane"
  ∧ resolveAuthor [] (str "+49 170 1234567") = str "+49 170 1234567" := by
  refine ⟨?_, ?_, rfl, rfl⟩
  · simp [resolveAuthor, hmap]
  · intro b hb
    simp [resolveAuthor, hb]

/-- Instantiation of `C2_alias_then_normalize` on a concrete alias
table. -/
theorem C2_alias_then_normalize_witness :
    (resolveAuthor [(str "X", str "Jane Doe")] (str "X")
      = if (str "Jane Doe").contains ' ' && !((str "Jane Doe").contains '+') then
          (str "Jane Doe").takeWhile (fun c => c != ' ')
        else str "Jane Doe")
  ∧ resolveAuthor [] (str "Jane Doe") = str "Jane" := by
  have h := C2_alias_then_normalize [(str "X", str "Jane Doe")] (str "X") (str "Jane Doe") rfl
  exact ⟨h.1, h.2.2.1⟩

/-- C3 as stated is false on the code: in the three-line scenario the
merged first record's `body_length` is 5 + 12 = 17 (the bodies are
`"Hello"` and `"How are you?"`), not the claimed 21. -/
theorem C3_counterexample :
    (parse_file (initState [] true []) c3lines).toOption.map
        (fun st => st.msgs.map (fun m => m.body_len))
      = some [17, 29]
  ∧ (17 : Nat) ≠ 21 := by
  refine ⟨rfl, ?_⟩
  decide

/-- C3 (amended): the three-line scenario under the `en` locale with
default settings yields exactly two records — Alice at 01/01/2020 10:00
with `part_count = 2`, `body_length = 17` and `is_initiator = true`, and
Bob at 02/01/2020 10:05 (86700 ≥ 86400 seconds later, body containing
`?`) with `part_count = 1` and `is_initiator = true`. -/
theorem C3_end_to_end :
    (parse_file (initState [] true []) c3lines).toOption.map (fun st => st.msgs)
      = some [{ author := str "Alice", date := toSeconds ⟨2020, 1, 1, 10, 0⟩, body_len := 17, parts := 2, initiator := true },
              { author := str "Bob", date := toSeconds ⟨2020, 1, 2, 10, 5⟩, body_len := 29, parts := 1, initiator := true }]
  ∧ toSeconds ⟨2020, 1, 2, 10, 5⟩ - toSeconds ⟨2020, 1, 1, 10, 0⟩ = 86700 := by
  refine ⟨rfl, ?_⟩
  decide

/-- C4 as stated is false on the code: three subject-change notices cause
three assignments of the chat title — nothing bounds the count by two. -/
theorem C4_counterexample :
    (parse_file (initState [] true []) [renLine, renLine, renLine]).toOption.map
        (fun st => st.title_sets)
      = some 3
  ∧ (2 : Nat) < 3 := by
  refine ⟨rfl, ?_⟩
  decide

theorem renState_start :
    parse_line (initState [] true []) renLine = Except.ok (renState 0) := rfl

theorem renState_step (k : Nat) :
    parse_line (renState k) renLine = Except.ok (renState (k + 1)) := rfl

theorem renState_finalize (k : Nat) :
    handle_entry (renState k) = Except.ok
      { renState k with chat_name := some (str "y"), title_sets := k + 1 } := rfl

theorem renState_parseLines (m : Nat) : ∀ k : Nat,
    parseLines (renState k) (List.replicate m renLine)
      = Except.ok (renState (k + m)) := by
  induction m with
  | zero => intro k; rfl
  | succ m ih =>
    intro k
    rw [List.replicate_succ]
    show (match parse_line (renState k) renLine with
          | Except.ok st1 => parseLines st1 (List.replicate m renLine)
          | Except.error e => Except.error e) = Except.ok (renState (k + (m + 1)))
    rw [renState_step k]
    show parseLines (renState (k + 1)) (List.replicate m renLine) = _
    rw [ih (k + 1)]
    have e : k + 1 + m = k + (m + 1) := by omega
    rw [e]

/-- C4 (amended): every recognized group-created or subject-change notice
assigns the chat title, with no bound on the count — an input of `n + 1`
subject-change entry lines produces exactly `n + 1` assignments, which
exceeds two as soon as `n ≥ 2`. -/
theorem C4_unbounded_assignments (n : Nat) :
    (parse_file (initState [] true []) (List.replicate (n + 1) renLine)).toOption.map
        (fun st => st.title_sets)
      = some (n + 1) := by
  have h1 : parseLines (initState [] true []) (List.replicate (n + 1) renLine)
      = Except.ok (renState n) := by
    rw [List.replicate_succ]
    show (match parse_line (initState [] true []) renLine with
          | Except.ok st1 => parseLines st1 (List.replicate n renLine)
          | Except.error e => Except.error e) = Except.ok (renState n)
    rw [renState_start]
    show parseLines (renState 0) (List.replicate n renLine) = Except.ok (renState n)
    have h := renState_parseLines n 0
    rw [h]
    rw [Nat.zero_add]
  unfold parse_file
  rw [h1]
  show (handle_entry (renState n)).toOption.map (fun st => st.title_sets) = some (n + 1)
  rw [renState_finalize n]
  rfl
